import Mathlib

/-!
Verification of the core components of the stm32demo firmware:
the tokenized Base64 log framer (src/log_tokenized_handler.cc) and the
build-metadata encoder (src/build_metadata.cc), plus the batch-processing
helper of src/main.cpp.  Bytes are modelled as natural numbers; emission
of bytes onto the UART is modelled by returning the list of emitted bytes.
-/

/-- The RFC 4648 Base64 alphabet table of log_tokenized_handler.cc
(the 64 ASCII codes of "ABC...xyz012...9+/"). -/
def kTable : List Nat :=
  [65, 66, 67, 68, 69, 70, 71, 72, 73, 74, 75, 76, 77, 78, 79, 80,
   81, 82, 83, 84, 85, 86, 87, 88, 89, 90,
   97, 98, 99, 100, 101, 102, 103, 104, 105, 106, 107, 108, 109, 110,
   111, 112, 113, 114, 115, 116, 117, 118, 119, 120, 121, 122,
   48, 49, 50, 51, 52, 53, 54, 55, 56, 57, 43, 47]

/-- EmitBase64 of log_tokenized_handler.cc: emits the table entry at
index `idx & 0x3F`.  Modelled as returning the emitted byte. -/
def EmitBase64 (idx : Nat) : Nat :=
  kTable.getD (idx &&& 63) 0

/-- The Base64 encoding loop of pw_log_tokenized_HandleLog: full 3-byte
groups produce 4 alphabet characters; a final group of 1 or 2 bytes is
padded with one or two bytes 61 (ASCII for the padding character).
Arguments of EmitBase64 carry the uint8 cast as `% 256`. -/
def handleLogBody : List Nat → List Nat
  | b0 :: b1 :: b2 :: rest =>
      EmitBase64 (((b0 * 65536 + b1 * 256 + b2) / 262144) % 256) ::
      EmitBase64 (((b0 * 65536 + b1 * 256 + b2) / 4096) % 256) ::
      EmitBase64 (((b0 * 65536 + b1 * 256 + b2) / 64) % 256) ::
      EmitBase64 ((b0 * 65536 + b1 * 256 + b2) % 256) ::
      handleLogBody rest
  | [b0] =>
      [EmitBase64 ((b0 * 65536 / 262144) % 256),
       EmitBase64 ((b0 * 65536 / 4096) % 256), 61, 61]
  | [b0, b1] =>
      [EmitBase64 (((b0 * 65536 + b1 * 256) / 262144) % 256),
       EmitBase64 (((b0 * 65536 + b1 * 256) / 4096) % 256),
       EmitBase64 (((b0 * 65536 + b1 * 256) / 64) % 256), 61]
  | [] => []

/-- pw_log_tokenized_HandleLog of log_tokenized_handler.cc: emits byte 36
(the dollar sentinel), the Base64 body of the payload, and byte 10 (the
newline terminator).  The metadata word is accepted but unused. -/
def pw_log_tokenized_HandleLog (_metadata : Nat) (data : List Nat) : List Nat :=
  36 :: (handleLogBody data ++ [10])

/-- Position of a byte in the Base64 table (helper for the decoder). -/
def b64Find (c : Nat) : List Nat → Nat → Option Nat
  | [], _ => none
  | t :: rest, i => if t = c then some i else b64Find c rest (i + 1)

/-- Index of a character in the RFC 4648 alphabet, `none` for a
non-alphabet byte.  Part of the reference decoder. -/
def b64Index (c : Nat) : Option Nat :=
  b64Find c kTable 0

/-- Modelled from the spec: a standard RFC 4648 Base64 decoder (the spec's
round-trip law needs a decoding side, which the repository does not
contain).  Groups of four characters yield three bytes; a final group may
end in one or two padding bytes 61. -/
def decodeBase64 : List Nat → Option (List Nat)
  | [] => some []
  | c0 :: c1 :: c2 :: c3 :: rest =>
      (b64Index c0).bind fun i0 =>
      (b64Index c1).bind fun i1 =>
      if c2 = 61 ∧ c3 = 61 ∧ rest = [] then
        some [i0 * 4 + i1 / 16]
      else if c3 = 61 ∧ rest = [] then
        (b64Index c2).bind fun i2 =>
        some [i0 * 4 + i1 / 16, (i1 % 16) * 16 + i2 / 4]
      else
        (b64Index c2).bind fun i2 =>
        (b64Index c3).bind fun i3 =>
        (decodeBase64 rest).bind fun tail =>
        some ((i0 * 262144 + i1 * 4096 + i2 * 64 + i3) / 65536 ::
              ((i0 * 262144 + i1 * 4096 + i2 * 64 + i3) / 256) % 256 ::
              (i0 * 262144 + i1 * 4096 + i2 * 64 + i3) % 256 :: tail)
  | _ => none

/-- One round of the CRC-32 inner loop of build_metadata.cc:
`crc = (crc >> 1) ^ (0xEDB88320u & (0u - (crc & 1u)))`, where the uint32
negation `0u - (crc & 1u)` wraps modulo 2^32. -/
def crc32_round (crc : Nat) : Nat :=
  (crc / 2) ^^^ (0xEDB88320 &&& ((2 ^ 32 - (crc &&& 1)) % 2 ^ 32))

/-- The 8-iteration for-loop of crc32_byte in build_metadata.cc. -/
def crc32_rounds : Nat → Nat → Nat
  | 0, crc => crc
  | n + 1, crc => crc32_rounds n (crc32_round crc)

/-- crc32_byte of build_metadata.cc: XOR the byte into the accumulator,
then run eight rounds. -/
def crc32_byte (crc b : Nat) : Nat :=
  crc32_rounds 8 (crc ^^^ b)

/-- crc32_str of build_metadata.cc: fold crc32_byte over the bytes of a
C string; iteration stops at the first NUL byte. -/
def crc32_str : List Nat → Nat → Nat
  | [], crc => crc
  | b :: rest, crc => if b = 0 then crc else crc32_str rest (crc32_byte crc b)

/-- The CRC-32 of a whole byte sequence as the metadata encoder computes
it: fold crc32_byte starting from 0xFFFFFFFF and XOR the result with
0xFFFFFFFF (the init/final-XOR wrapper of the kMetaCrc lambda). -/
def crc32 (bs : List Nat) : Nat :=
  (bs.foldl crc32_byte 0xFFFFFFFF) ^^^ 0xFFFFFFFF

/-- Modelled from the spec: one conditional round of the reference
IEEE-802.3 CRC-32: if the low bit is set, shift right and XOR with
0xEDB88320, else just shift right. -/
def ref_crc32_round (crc : Nat) : Nat :=
  if crc % 2 = 1 then (crc / 2) ^^^ 0xEDB88320 else crc / 2

/-- Modelled from the spec: eight conditional rounds. -/
def ref_crc32_rounds : Nat → Nat → Nat
  | 0, crc => crc
  | n + 1, crc => ref_crc32_rounds n (ref_crc32_round crc)

/-- Modelled from the spec: reference per-byte update: XOR the byte into
the low byte of the accumulator, then eight conditional rounds. -/
def ref_crc32_update (crc b : Nat) : Nat :=
  ref_crc32_rounds 8 (crc ^^^ b)

/-- Modelled from the spec: the reference zlib/IEEE-802.3 CRC-32 of a byte
sequence: init 0xFFFFFFFF, per-byte update, final XOR 0xFFFFFFFF. -/
def ref_crc32 (bs : List Nat) : Nat :=
  (bs.foldl ref_crc32_update 0xFFFFFFFF) ^^^ 0xFFFFFFFF

theorem crc32_round_eq_ref (c : Nat) : crc32_round c = ref_crc32_round c := by
  unfold crc32_round ref_crc32_round
  rcases Nat.mod_two_eq_zero_or_one c with h | h
  · have h1 : c &&& 1 = 0 := by rw [Nat.and_one_is_mod, h]
    have h2 : (0xEDB88320 &&& ((2 ^ 32 - 0) % 2 ^ 32)) = 0 := by decide
    rw [h1, h2, Nat.xor_zero, if_neg (by omega)]
  · have h1 : c &&& 1 = 1 := by rw [Nat.and_one_is_mod, h]
    have h2 : (0xEDB88320 &&& ((2 ^ 32 - 1) % 2 ^ 32)) = 0xEDB88320 := by decide
    rw [h1, h2, if_pos h]

theorem crc32_rounds_eq_ref : ∀ n c, crc32_rounds n c = ref_crc32_rounds n c
  | 0, _ => rfl
  | n + 1, c => by
      rw [crc32_rounds, ref_crc32_rounds, crc32_round_eq_ref,
        crc32_rounds_eq_ref n]

theorem crc32_byte_eq_ref (c b : Nat) :
    crc32_byte c b = ref_crc32_update c b := by
  unfold crc32_byte ref_crc32_update
  exact crc32_rounds_eq_ref 8 (c ^^^ b)

theorem foldl_crc32_byte_eq_ref :
    ∀ (bs : List Nat) (c : Nat),
      bs.foldl crc32_byte c = bs.foldl ref_crc32_update c
  | [], _ => rfl
  | b :: rest, c => by
      rw [List.foldl_cons, List.foldl_cons, crc32_byte_eq_ref,
        foldl_crc32_byte_eq_ref rest]

set_option maxRecDepth 100000 in
/-- Claim C3: the CRC-32 function of the metadata encoder agrees with the
reference IEEE-802.3/zlib CRC-32 on every byte sequence, and on the ASCII
bytes of "123456789" it yields 0xCBF43926. -/
theorem crc32_matches_reference :
    (∀ bs : List Nat, crc32 bs = ref_crc32 bs) ∧
    crc32 [49, 50, 51, 52, 53, 54, 55, 56, 57] = 0xCBF43926 := by
  constructor
  · intro bs
    unfold crc32 ref_crc32
    rw [foldl_crc32_byte_eq_ref]
  · decide

/-- str_arr of build_metadata.cc: copy a C string into a zero-initialised
fixed-size array of N bytes, stopping at index N-1 or at the first NUL
byte, whichever comes first. -/
def str_arr (N : Nat) (s : List Nat) : List Nat :=
  let t := (s.takeWhile (fun b => b != 0)).take (N - 1)
  t ++ List.replicate (N - t.length) 0

/-- kMetaCrc of build_metadata.cc: CRC-32 folded over the commit string,
the dirty byte, the branch string and the date and time strings, with the
init/final-XOR wrapper.  The strings are the raw inputs, processed up to
their first NUL byte. -/
def kMetaCrc (commit : List Nat) (dirty : Bool) (branch date time : List Nat) : Nat :=
  (crc32_str time
    (crc32_str date
      (crc32_str branch
        (crc32_byte (crc32_str commit 0xFFFFFFFF)
          (if dirty then 1 else 0))))) ^^^ 0xFFFFFFFF

/-- Little-endian byte serialisation of a 32-bit value (the in-memory
layout of the packed crc32 field). -/
def le32 (n : Nat) : List Nat :=
  [n % 256, n / 256 % 256, n / 65536 % 256, n / 16777216 % 256]

/-- The 71 bytes of the packed BuildMetadata struct of build_metadata.cc,
in declared field order with no inter-field padding: magic "META", commit
(9 bytes), dirty (1 byte), branch (32 bytes), date (12 bytes), time
(9 bytes), crc32 (4 bytes little-endian). -/
def BuildMetadata (commit : List Nat) (dirty : Bool) (branch date time : List Nat) : List Nat :=
  [77, 69, 84, 65] ++ str_arr 9 commit ++ [if dirty then 1 else 0] ++
  str_arr 32 branch ++ str_arr 12 date ++ str_arr 9 time ++
  le32 (kMetaCrc commit dirty branch date time)

/-- The stored bytes of a fixed-size string field, without the NUL
terminator and padding (the prefix before the first NUL byte). -/
def storedFieldBytes (a : List Nat) : List Nat :=
  a.takeWhile (fun b => b != 0)

/-- Modelled from the claim: the concatenation of the record's stored
field bytes, each without NUL: commit, dirty byte, branch, date, time. -/
def storedCrcPayload (commit : List Nat) (dirty : Bool) (branch date time : List Nat) : List Nat :=
  storedFieldBytes (str_arr 9 commit) ++ [if dirty then 1 else 0] ++
  storedFieldBytes (str_arr 32 branch) ++ storedFieldBytes (str_arr 12 date) ++
  storedFieldBytes (str_arr 9 time)

theorem takeWhile_ne_zero_append (s t : List Nat) (h : ∀ b ∈ s, b ≠ 0) :
    (s ++ t).takeWhile (fun b => b != 0) = s ++ t.takeWhile (fun b => b != 0) := by
  induction s with
  | nil => simp
  | cons a s ih =>
      have ha : a ≠ 0 := h a (by simp)
      simp only [List.cons_append, List.takeWhile_cons]
      simp only [bne_iff_ne, ne_eq, ha, not_false_eq_true, if_true]
      rw [ih (fun b hb => h b (by simp [hb]))]

theorem takeWhile_ne_zero_replicate (k : Nat) :
    (List.replicate k 0).takeWhile (fun b => b != 0) = ([] : List Nat) := by
  cases k with
  | zero => rfl
  | succ n => simp [List.replicate, List.takeWhile_cons]

theorem storedFieldBytes_str_arr (N : Nat) (s : List Nat)
    (h : ∀ b ∈ s, b ≠ 0) (hl : s.length ≤ N - 1) :
    storedFieldBytes (str_arr N s) = s := by
  have hs : s.takeWhile (fun b => b != 0) = s := by
    have := takeWhile_ne_zero_append s [] h
    simpa using this
  unfold storedFieldBytes str_arr
  simp only [hs, List.take_of_length_le hl]
  rw [takeWhile_ne_zero_append s _ h, takeWhile_ne_zero_replicate,
    List.append_nil]

theorem crc32_str_eq_foldl (s : List Nat) (c : Nat) (h : ∀ b ∈ s, b ≠ 0) :
    crc32_str s c = s.foldl crc32_byte c := by
  induction s generalizing c with
  | nil => rfl
  | cons b rest ih =>
      have hb : b ≠ 0 := h b (by simp)
      rw [crc32_str, if_neg hb, List.foldl_cons,
        ih (crc32_byte c b) (fun x hx => h x (by simp [hx]))]

set_option maxRecDepth 1000000 in
/-- Claim C2, counterexample: for a 9-character commit string (one byte
longer than the stored field can hold) the crc32 field is computed over
the untruncated input, so it differs from the reference CRC-32 of the
record's stored field bytes. -/
theorem kMetaCrc_overlong_mismatch :
    kMetaCrc [65, 65, 65, 65, 65, 65, 65, 65, 65] false [] [] [] ≠
      ref_crc32 (storedCrcPayload [65, 65, 65, 65, 65, 65, 65, 65, 65] false [] [] []) := by
  decide

/-- Claim C2, amended: whenever each input string fits its field (commit
at most 8 bytes, branch at most 31, date at most 11, time at most 8, all
bytes nonzero), the crc32 field equals the reference CRC-32 of the
unpadded concatenation of the record's stored field bytes: commit without
NUL, dirty byte, branch without NUL, date without NUL, time without NUL. -/
theorem kMetaCrc_stored_fields (commit branch date time : List Nat) (dirty : Bool)
    (hc : ∀ b ∈ commit, b ≠ 0) (hcl : commit.length ≤ 8)
    (hb : ∀ b ∈ branch, b ≠ 0) (hbl : branch.length ≤ 31)
    (hd : ∀ b ∈ date, b ≠ 0) (hdl : date.length ≤ 11)
    (ht : ∀ b ∈ time, b ≠ 0) (htl : time.length ≤ 8) :
    kMetaCrc commit dirty branch date time =
      ref_crc32 (storedCrcPayload commit dirty branch date time) := by
  have sc := storedFieldBytes_str_arr 9 commit hc (by omega)
  have sb := storedFieldBytes_str_arr 32 branch hb (by omega)
  have sd := storedFieldBytes_str_arr 12 date hd (by omega)
  have st := storedFieldBytes_str_arr 9 time ht (by omega)
  unfold kMetaCrc ref_crc32 storedCrcPayload
  rw [sc, sb, sd, st]
  rw [crc32_str_eq_foldl commit _ hc, crc32_str_eq_foldl branch _ hb,
    crc32_str_eq_foldl date _ hd, crc32_str_eq_foldl time _ ht]
  simp only [List.foldl_append, List.foldl_cons, List.foldl_nil]
  rw [foldl_crc32_byte_eq_ref commit, crc32_byte_eq_ref,
    foldl_crc32_byte_eq_ref branch, foldl_crc32_byte_eq_ref date,
    foldl_crc32_byte_eq_ref time]

/-- Witness for the amended claim C2 at a concrete fitting input
(commit "abcd1234", branch "main", date "Jan", time "0"). -/
theorem kMetaCrc_stored_fields_witness :
    kMetaCrc [97, 98, 99, 100, 49, 50, 51, 52] false [109, 97, 105, 110]
        [74, 97, 110] [48] =
      ref_crc32 (storedCrcPayload [97, 98, 99, 100, 49, 50, 51, 52] false
        [109, 97, 105, 110] [74, 97, 110] [48]) :=
  kMetaCrc_stored_fields [97, 98, 99, 100, 49, 50, 51, 52]
    [109, 97, 105, 110] [74, 97, 110] [48] false
    (by decide) (by decide) (by decide) (by decide)
    (by decide) (by decide) (by decide) (by decide)

/-- Claim C5: the assembled BuildMetadata record is exactly 71 bytes for
all inputs, and a branch name longer than 31 characters is truncated to
its first 31 characters and NUL-padded to 32 bytes. -/
theorem BuildMetadata_layout :
    (∀ (commit branch date time : List Nat) (dirty : Bool),
      (BuildMetadata commit dirty branch date time).length = 71) ∧
    (∀ branch : List Nat, (∀ b ∈ branch, b ≠ 0) → 31 < branch.length →
      str_arr 32 branch = branch.take 31 ++ [0]) := by
  constructor
  · intro commit branch date time dirty
    have hlen : ∀ (N : Nat) (s : List Nat), (str_arr N s).length = N := by
      intro N s
      simp only [str_arr, List.length_append, List.length_replicate,
        List.length_take]
      omega
    simp only [BuildMetadata, le32, List.length_append, hlen]
    rfl
  · intro branch hz hlen
    have hs : branch.takeWhile (fun b => b != 0) = branch := by
      have := takeWhile_ne_zero_append branch [] hz
      simpa using this
    have htk : (branch.take 31).length = 31 := by
      simp [List.length_take]
      omega
    unfold str_arr
    simp only [hs, htk]
    rfl

/-- Witness for claim C5 at a concrete input: an all-'A' branch name of
32 characters is stored as 31 'A' bytes followed by a NUL byte. -/
theorem BuildMetadata_layout_witness :
    (BuildMetadata [] false [] [] []).length = 71 ∧
    str_arr 32 (List.replicate 32 65) = List.replicate 31 65 ++ [0] := by
  refine ⟨BuildMetadata_layout.1 [] [] [] [] false, ?_⟩
  have h := BuildMetadata_layout.2 (List.replicate 32 65)
    (by decide) (by decide)
  rw [h]
  decide

theorem threeStep_induction {P : List Nat → Prop} :
    ∀ l : List Nat, P [] → (∀ b, P [b]) → (∀ b c, P [b, c]) →
      (∀ b c d rest, P rest → P (b :: c :: d :: rest)) → P l
  | [], h0, _, _, _ => h0
  | [b], _, h1, _, _ => h1 b
  | [b, c], _, _, h2, _ => h2 b c
  | b :: c :: d :: rest, h0, h1, h2, h3 =>
      h3 b c d rest (threeStep_induction rest h0 h1 h2 h3)

theorem emitB64_eq_mod (n : Nat) : EmitBase64 n = kTable.getD (n % 64) 0 := by
  unfold EmitBase64
  have h : n &&& 63 = n % 64 := by
    have := Nat.and_pow_two_sub_one_eq_mod n 6
    norm_num at this
    exact this
  rw [h]

theorem kTable_getD_index : ∀ k, k < 64 → b64Index (kTable.getD k 0) = some k := by
  decide

theorem kTable_getD_ne_61 : ∀ k, k < 64 → kTable.getD k 0 ≠ 61 := by
  decide

theorem kTable_getD_mem : ∀ k, k < 64 → kTable.getD k 0 ∈ kTable := by
  decide

theorem b64Index_emitB64 (n : Nat) : b64Index (EmitBase64 n) = some (n % 64) := by
  rw [emitB64_eq_mod]
  exact kTable_getD_index (n % 64) (Nat.mod_lt n (by norm_num))

theorem emitB64_ne_61 (n : Nat) : ¬ EmitBase64 n = 61 := by
  rw [emitB64_eq_mod]
  exact kTable_getD_ne_61 (n % 64) (Nat.mod_lt n (by norm_num))

theorem emitB64_mem_kTable (n : Nat) : EmitBase64 n ∈ kTable := by
  rw [emitB64_eq_mod]
  exact kTable_getD_mem (n % 64) (Nat.mod_lt n (by norm_num))

theorem decode_handleLogBody (payload : List Nat)
    (h : ∀ b ∈ payload, b < 256) :
    decodeBase64 (handleLogBody payload) = some payload := by
  refine threeStep_induction
    (P := fun l => (∀ b ∈ l, b < 256) →
      decodeBase64 (handleLogBody l) = some l)
    payload ?_ ?_ ?_ ?_ h
  · intro _; rfl
  · intro b0 h
    have hb0 : b0 < 256 := h b0 (by simp)
    simp only [handleLogBody, decodeBase64, b64Index_emitB64, emitB64_ne_61]
    simp
    omega
  · intro b0 b1 h
    have hb0 : b0 < 256 := h b0 (by simp)
    have hb1 : b1 < 256 := h b1 (by simp)
    simp only [handleLogBody, decodeBase64, b64Index_emitB64, emitB64_ne_61]
    simp
    omega
  · intro b0 b1 b2 rest ih h
    have hb0 : b0 < 256 := h b0 (by simp)
    have hb1 : b1 < 256 := h b1 (by simp)
    have hb2 : b2 < 256 := h b2 (by simp)
    have hrest : decodeBase64 (handleLogBody rest) = some rest :=
      ih (fun b hb => h b (by simp [hb]))
    simp only [handleLogBody, decodeBase64, b64Index_emitB64, emitB64_ne_61,
      hrest]
    simp
    constructor
    · omega
    constructor
    · omega
    · omega

/-- Claim C1: every emitted frame is the byte 36 (the dollar sentinel),
then the Base64 body, then the byte 10 (newline); stripping the sentinel
and terminator and Base64-decoding the body with an RFC 4648 decoder
reproduces the original payload exactly. -/
theorem handleLog_base64_roundtrip (metadata : Nat) (payload : List Nat)
    (h : ∀ b ∈ payload, b < 256) :
    pw_log_tokenized_HandleLog metadata payload =
      36 :: (handleLogBody payload ++ [10]) ∧
    decodeBase64 (handleLogBody payload) = some payload :=
  ⟨rfl, decode_handleLogBody payload h⟩

/-- Witness for claim C1 at payload [1, 2, 3, 4]. -/
theorem handleLog_base64_roundtrip_witness :
    pw_log_tokenized_HandleLog 0 [1, 2, 3, 4] =
      36 :: (handleLogBody [1, 2, 3, 4] ++ [10]) ∧
    decodeBase64 (handleLogBody [1, 2, 3, 4]) = some [1, 2, 3, 4] :=
  handleLog_base64_roundtrip 0 [1, 2, 3, 4] (by decide)

/-- Number of padding characters of a Base64 body, as a function of the
payload length modulo 3. -/
def padLen : Nat → Nat
  | 0 => 0
  | 1 => 2
  | _ => 1

/-- Claim C4: the Base64 body of a frame for a payload of length L has
length ceil(L/3)*4 and ends in exactly padLen (L % 3) padding bytes 61
(two when L % 3 = 1, one when L % 3 = 2, none when 3 divides L), with no
padding byte anywhere earlier in the body. -/
theorem body_length_padding (payload : List Nat) :
    (handleLogBody payload).length = ((payload.length + 2) / 3) * 4 ∧
    ∃ pre, handleLogBody payload =
        pre ++ List.replicate (padLen (payload.length % 3)) 61 ∧
      ∀ c ∈ pre, c ≠ 61 := by
  refine threeStep_induction
    (P := fun l => (handleLogBody l).length = ((l.length + 2) / 3) * 4 ∧
      ∃ pre, handleLogBody l =
          pre ++ List.replicate (padLen (l.length % 3)) 61 ∧
        ∀ c ∈ pre, c ≠ 61)
    payload ?_ ?_ ?_ ?_
  · exact ⟨rfl, [], rfl, by simp⟩
  · intro b0
    refine ⟨by simp [handleLogBody],
      [EmitBase64 (b0 * 65536 / 262144 % 256),
       EmitBase64 (b0 * 65536 / 4096 % 256)],
      by simp [handleLogBody, padLen, List.replicate], ?_⟩
    intro c hc
    simp only [List.mem_cons, List.not_mem_nil, or_false] at hc
    rcases hc with rfl | rfl <;> exact emitB64_ne_61 _
  · intro b0 b1
    refine ⟨by simp [handleLogBody],
      [EmitBase64 ((b0 * 65536 + b1 * 256) / 262144 % 256),
       EmitBase64 ((b0 * 65536 + b1 * 256) / 4096 % 256),
       EmitBase64 ((b0 * 65536 + b1 * 256) / 64 % 256)],
      by simp [handleLogBody, padLen, List.replicate], ?_⟩
    intro c hc
    simp only [List.mem_cons, List.not_mem_nil, or_false] at hc
    rcases hc with rfl | rfl | rfl <;> exact emitB64_ne_61 _
  · intro b0 b1 b2 rest ih
    obtain ⟨ihlen, pre, hpre, hne⟩ := ih
    constructor
    · simp only [handleLogBody, List.length_cons, ihlen, List.length_cons]
      omega
    · refine ⟨EmitBase64 ((b0 * 65536 + b1 * 256 + b2) / 262144 % 256) ::
        EmitBase64 ((b0 * 65536 + b1 * 256 + b2) / 4096 % 256) ::
        EmitBase64 ((b0 * 65536 + b1 * 256 + b2) / 64 % 256) ::
        EmitBase64 ((b0 * 65536 + b1 * 256 + b2) % 256) :: pre, ?_, ?_⟩
      · have hmod : (b0 :: b1 :: b2 :: rest).length % 3 = rest.length % 3 := by
          simp only [List.length_cons]
          omega
        rw [hmod, handleLogBody, hpre]
        simp
      · intro c hc
        simp only [List.mem_cons] at hc
        rcases hc with rfl | rfl | rfl | rfl | h
        · exact emitB64_ne_61 _
        · exact emitB64_ne_61 _
        · exact emitB64_ne_61 _
        · exact emitB64_ne_61 _
        · exact hne c h

/-- Witness for claim C4 at payload [255]. -/
theorem body_length_padding_witness :
    (handleLogBody [255]).length = ((List.length [255] + 2) / 3) * 4 ∧
    ∃ pre, handleLogBody [255] =
        pre ++ List.replicate (padLen (List.length [255] % 3)) 61 ∧
      ∀ c ∈ pre, c ≠ 61 :=
  body_length_padding [255]

/-- Claim C9: EmitBase64 masks its index with 0x3F, so the masked index is
always within the 64-entry table and the emitted byte is always a table
entry; consequently every byte of the Base64 body between the sentinel and
the terminator is an RFC 4648 alphabet character or the padding byte 61. -/
theorem base64_output_alphabet :
    (∀ n : Nat, n &&& 63 < kTable.length ∧ EmitBase64 n ∈ kTable) ∧
    (∀ payload : List Nat, ∀ c ∈ handleLogBody payload,
      c ∈ kTable ∨ c = 61) := by
  constructor
  · intro n
    constructor
    · have h : n &&& 63 = n % 64 := by
        have := Nat.and_pow_two_sub_one_eq_mod n 6
        norm_num at this
        exact this
      rw [h]
      exact Nat.mod_lt n (by norm_num)
    · exact emitB64_mem_kTable n
  · intro payload
    refine threeStep_induction
      (P := fun l => ∀ c ∈ handleLogBody l, c ∈ kTable ∨ c = 61)
      payload ?_ ?_ ?_ ?_
    · intro c hc; cases hc
    · intro b0 c hc
      simp only [handleLogBody, List.mem_cons, List.not_mem_nil, or_false] at hc
      rcases hc with rfl | rfl | rfl | rfl
      · exact Or.inl (emitB64_mem_kTable _)
      · exact Or.inl (emitB64_mem_kTable _)
      · exact Or.inr rfl
      · exact Or.inr rfl
    · intro b0 b1 c hc
      simp only [handleLogBody, List.mem_cons, List.not_mem_nil, or_false] at hc
      rcases hc with rfl | rfl | rfl | rfl
      · exact Or.inl (emitB64_mem_kTable _)
      · exact Or.inl (emitB64_mem_kTable _)
      · exact Or.inl (emitB64_mem_kTable _)
      · exact Or.inr rfl
    · intro b0 b1 b2 rest ih c hc
      simp only [handleLogBody, List.mem_cons] at hc
      rcases hc with rfl | rfl | rfl | rfl | h
      · exact Or.inl (emitB64_mem_kTable _)
      · exact Or.inl (emitB64_mem_kTable _)
      · exact Or.inl (emitB64_mem_kTable _)
      · exact Or.inl (emitB64_mem_kTable _)
      · exact ih c h

/-- Witness for claim C9 at index 5 and at the body byte 47 of the frame
for payload [255]. -/
theorem base64_output_alphabet_witness :
    (5 &&& 63 < kTable.length ∧ EmitBase64 5 ∈ kTable) ∧
    (47 ∈ kTable ∨ 47 = 61) :=
  ⟨base64_output_alphabet.1 5,
   base64_output_alphabet.2 [255] 47 (by decide)⟩

/-- Claim C6: the metadata parameter is never written onto the wire: two
calls with the same payload and any two metadata values emit byte-identical
frames. -/
theorem metadata_not_on_wire (m1 m2 : Nat) (payload : List Nat) :
    pw_log_tokenized_HandleLog m1 payload = pw_log_tokenized_HandleLog m2 payload :=
  rfl

/-- Claim C7: for the empty payload the emitted frame is exactly the two
bytes 36 and 10, with no Base64 body and no padding. -/
theorem empty_payload_frame (m : Nat) :
    pw_log_tokenized_HandleLog m [] = [36, 10] :=
  rfl

/-- Claim C8: concrete test vectors: payload [0xFF] yields the frame
"$/w==\n" (bytes 36,47,119,61,61,10) and payload [0,0,0] yields the frame
"$AAAA\n" (bytes 36,65,65,65,65,10). -/
theorem frame_test_vectors (m : Nat) :
    pw_log_tokenized_HandleLog m [255] = [36, 47, 119, 61, 61, 10] ∧
    pw_log_tokenized_HandleLog m [0, 0, 0] = [36, 65, 65, 65, 65, 10] :=
  ⟨rfl, rfl⟩

/-- pw::Status values used by ProcessBatch in main.cpp. -/
inductive Status where
  | ok : Status
  | invalidArgument : Status
deriving DecidableEq

/-- SensorReading of main.cpp: a millisecond timestamp and a signed raw
sensor value. -/
structure SensorReading where
  timestamp_ms : Nat
  raw_value : Int
deriving DecidableEq

/-- ProcessBatch of main.cpp: an empty batch yields InvalidArgument before
any element is read; otherwise the raw values are summed, the mean is the
truncating signed quotient of the sum by the batch size, and OkStatus is
returned.  The logged mean is modelled as the second component. -/
def ProcessBatch (batch : List SensorReading) : Status × Option Int :=
  if batch.isEmpty then
    (Status.invalidArgument, none)
  else
    (Status.ok, some (Int.tdiv
      (batch.foldl (fun s r => s + r.raw_value) 0)
      (batch.length : Int)))

theorem foldl_add_raw_value (l : List SensorReading) (a : Int) :
    l.foldl (fun s r => s + r.raw_value) a =
      a + (l.map SensorReading.raw_value).sum := by
  induction l generalizing a with
  | nil => simp
  | cons r rest ih =>
      simp only [List.foldl_cons, List.map_cons, List.sum_cons, ih,
        add_assoc]

/-- Claim C10: ProcessBatch returns InvalidArgument on the empty batch
(with no mean computed) and OkStatus on every non-empty batch, the logged
mean being the truncating signed integer quotient of the sum of the
raw_value fields by the batch size. -/
theorem processBatch_spec :
    ProcessBatch [] = (Status.invalidArgument, none) ∧
    ∀ batch : List SensorReading, batch ≠ [] →
      ProcessBatch batch = (Status.ok, some (Int.tdiv
        ((batch.map SensorReading.raw_value).sum) (batch.length : Int))) := by
  constructor
  · rfl
  · intro batch h
    have hne : batch.isEmpty = false := by
      cases batch with
      | nil => exact absurd rfl h
      | cons r rest => rfl
    unfold ProcessBatch
    rw [hne]
    simp only [Bool.false_eq_true, if_false, foldl_add_raw_value, zero_add]

/-- Witness for claim C10 at the batch [(0 ms, 5), (500 ms, -2)]:
the mean is tdiv 3 2 = 1. -/
theorem processBatch_spec_witness :
    ProcessBatch [⟨0, 5⟩, ⟨500, -2⟩] = (Status.ok, some (Int.tdiv
      (([⟨0, 5⟩, ⟨500, (-2 : Int)⟩].map SensorReading.raw_value).sum)
      ((List.length [(⟨0, 5⟩ : SensorReading), ⟨500, -2⟩] : Nat) : Int))) :=
  processBatch_spec.2 [⟨0, 5⟩, ⟨500, -2⟩] (by simp)
